import Mathlib

/-!
Verification development for the `pymmapipc` repository
(`src/pymmapipc/mmapipc.py`).

The mapped file is modelled as a `List Nat` of byte values.  `mmap.seek`
followed by `mmap.read(n)` is modelled by `mread` (absolute position), and
`mmap.seek` followed by `mmap.write(bs)` by `mwrite`.  `mmap.read` truncates
at the end of the mapping, which `mread` reproduces via `take`/`drop`;
`mwrite` never extends the mapping.

All integers in the file are little-endian unsigned 32-bit (`struct`
format `<I`), modelled by `le32` (encode) and `de32` (decode).

The `send` and `recv` operations are modelled on their `blocking=False`
path (the default); the blocking variants only add a polling sleep loop
around the same header re-read and do not change the data path.
Python integers do not overflow; cursor arithmetic that can go negative in
Python (`available` space) is carried out in `Int`, exactly as the source
expressions write it.
-/

namespace Mmapipc

/-- Little-endian encoding of a 32-bit word, `struct.pack("<I", n)`. -/
def le32 (n : Nat) : List Nat :=
  [n % 256, n / 256 % 256, n / 65536 % 256, n / 16777216 % 256]

/-- Little-endian decoding of 4 bytes, `struct.unpack("<I", bs)[0]`. -/
def de32 (bs : List Nat) : Nat :=
  bs.getD 0 0 + 256 * bs.getD 1 0 + 65536 * bs.getD 2 0 + 16777216 * bs.getD 3 0

theorem le32_length (n : Nat) : (le32 n).length = 4 := rfl

theorem de32_le32 (n : Nat) (h : n < 4294967296) : de32 (le32 n) = n := by
  simp [le32, de32, List.getD]
  omega

theorem le32_bytes (n : Nat) : ∀ b ∈ le32 n, b < 256 := by
  intro b hb
  simp only [le32, List.mem_cons, List.not_mem_nil, or_false] at hb
  rcases hb with h | h | h | h <;> omega

theorem de32_lt (bs : List Nat) (h : ∀ b ∈ bs, b < 256) : de32 bs < 4294967296 := by
  have h0 : bs.getD 0 0 < 256 := by
    rcases hg : bs[0]? with _ | b
    · simp [List.getD, hg]
    · have := h b (List.getElem?_mem hg)
      simp [List.getD, hg]; omega
  have h1 : bs.getD 1 0 < 256 := by
    rcases hg : bs[1]? with _ | b
    · simp [List.getD, hg]
    · have := h b (List.getElem?_mem hg)
      simp [List.getD, hg]; omega
  have h2 : bs.getD 2 0 < 256 := by
    rcases hg : bs[2]? with _ | b
    · simp [List.getD, hg]
    · have := h b (List.getElem?_mem hg)
      simp [List.getD, hg]; omega
  have h3 : bs.getD 3 0 < 256 := by
    rcases hg : bs[3]? with _ | b
    · simp [List.getD, hg]
    · have := h b (List.getElem?_mem hg)
      simp [List.getD, hg]; omega
  simp only [de32]; omega

theorem le32_de32 (bs : List Nat) (hlen : bs.length = 4) (h : ∀ b ∈ bs, b < 256) :
    le32 (de32 bs) = bs := by
  match bs, hlen with
  | [a, b, c, d], _ =>
    have ha := h a (by simp)
    have hb := h b (by simp)
    have hc := h c (by simp)
    have hd := h d (by simp)
    simp only [de32, List.getD, List.getElem?_cons_zero, List.getElem?_cons_succ,
      Option.getD_some, le32]
    refine List.ext_getElem? fun n => ?_
    match n with
    | 0 => simp; omega
    | 1 => simp; omega
    | 2 => simp; omega
    | 3 => simp; omega
    | (m + 4) => simp

/-- `mmap.seek(pos)` followed by `mmap.read(len)`: reading truncates at the
end of the mapping. -/
def mread (f : List Nat) (pos len : Nat) : List Nat :=
  (f.drop pos).take len

/-- `mmap.seek(pos)` followed by `mmap.write(bs)`: overwrite bytes starting
at `pos`.  (The mapping is never grown; in every modelled scenario the write
fits inside the mapping, as it does in the source.) -/
def mwrite : List Nat → Nat → List Nat → List Nat
  | [], _, _ => []
  | f, _, [] => f
  | _ :: f, 0, b :: bs => b :: mwrite f 0 bs
  | a :: f, p + 1, bs => a :: mwrite f p bs

theorem mwrite_length (f : List Nat) : ∀ p bs, (mwrite f p bs).length = f.length := by
  induction f with
  | nil => intro p bs; cases p <;> cases bs <;> rfl
  | cons a t ih =>
    intro p bs
    cases p with
    | zero => cases bs with
      | nil => rfl
      | cons b bs' => simp [mwrite, ih]
    | succ p' => cases bs with
      | nil => rfl
      | cons b bs' => simp [mwrite, ih]

theorem mwrite_getElem? (f : List Nat) : ∀ (p : Nat) (bs : List Nat) (j : Nat),
    (mwrite f p bs)[j]? =
      if p ≤ j ∧ j < p + bs.length ∧ j < f.length then bs[j - p]? else f[j]? := by
  induction f with
  | nil =>
    intro p bs j
    have : (mwrite [] p bs) = [] := by cases p <;> cases bs <;> rfl
    rw [this]
    simp
  | cons a t ih =>
    intro p bs j
    cases bs with
    | nil =>
      have he : mwrite (a :: t) p [] = a :: t := by cases p <;> rfl
      rw [he]
      split
      · rename_i hc
        exfalso
        simp only [List.length_nil] at hc
        omega
      · rfl
    | cons b bs' =>
      cases p with
      | zero =>
        cases j with
        | zero => simp [mwrite]
        | succ j' =>
          simp only [mwrite, List.getElem?_cons_succ, ih 0 bs' j', List.length_cons,
            Nat.zero_add, Nat.sub_zero, Nat.zero_le, true_and]
          by_cases h1 : j' < bs'.length ∧ j' < t.length
          · rw [if_pos h1, if_pos (by omega)]
          · rw [if_neg h1, if_neg (by omega)]
      | succ p' =>
        cases j with
        | zero =>
          simp only [mwrite, List.getElem?_cons_zero]
          rw [if_neg (by omega)]
        | succ j' =>
          simp only [mwrite, List.getElem?_cons_succ, ih p' (b :: bs') j', List.length_cons]
          by_cases h1 : p' ≤ j' ∧ j' < p' + (bs'.length + 1) ∧ j' < t.length
          · rw [if_pos h1, if_pos (by omega)]
            have he : j' + 1 - (p' + 1) = j' - p' := by omega
            rw [he]
          · rw [if_neg h1, if_neg (by omega)]

theorem getElem?_drop (f : List Nat) : ∀ (n m : Nat), (f.drop n)[m]? = f[n + m]? := by
  induction f with
  | nil => intro n m; simp
  | cons a t ih =>
    intro n m
    cases n with
    | zero => simp
    | succ n' =>
      simp only [List.drop_succ_cons, ih n' m]
      have : n' + 1 + m = (n' + m) + 1 := by omega
      rw [this, List.getElem?_cons_succ]

theorem getElem?_take (f : List Nat) : ∀ (n m : Nat),
    (f.take n)[m]? = if m < n then f[m]? else none := by
  induction f with
  | nil => intro n m; simp
  | cons a t ih =>
    intro n m
    cases n with
    | zero => simp
    | succ n' =>
      cases m with
      | zero => simp
      | succ m' =>
        simp only [List.take_succ_cons, List.getElem?_cons_succ, ih n' m']
        by_cases h : m' < n'
        · rw [if_pos h, if_pos (by omega)]
        · rw [if_neg h, if_neg (by omega)]

theorem mread_getElem? (f : List Nat) (pos len k : Nat) :
    (mread f pos len)[k]? = if k < len then f[pos + k]? else none := by
  simp only [mread, getElem?_take, getElem?_drop]

theorem mread_congr (f g : List Nat) (pos len : Nat)
    (h : ∀ j, pos ≤ j → j < pos + len → f[j]? = g[j]?) :
    mread f pos len = mread g pos len := by
  refine List.ext_getElem? fun k => ?_
  rw [mread_getElem?, mread_getElem?]
  by_cases hk : k < len
  · rw [if_pos hk, if_pos hk]
    exact h (pos + k) (by omega) (by omega)
  · rw [if_neg hk, if_neg hk]

theorem mread_mwrite_before (f : List Nat) (p : Nat) (bs : List Nat) (pos len : Nat)
    (h : pos + len ≤ p) :
    mread (mwrite f p bs) pos len = mread f pos len := by
  apply mread_congr
  intro j h1 h2
  rw [mwrite_getElem?, if_neg (by omega)]

theorem mread_mwrite_after (f : List Nat) (p : Nat) (bs : List Nat) (pos len : Nat)
    (h : p + bs.length ≤ pos) :
    mread (mwrite f p bs) pos len = mread f pos len := by
  apply mread_congr
  intro j h1 h2
  rw [mwrite_getElem?, if_neg (by omega)]

theorem mread_mwrite_inside (f : List Nat) (p : Nat) (bs : List Nat) (pos len : Nat)
    (h1 : p ≤ pos) (h2 : pos + len ≤ p + bs.length) (h3 : p + bs.length ≤ f.length) :
    mread (mwrite f p bs) pos len = (bs.drop (pos - p)).take len := by
  refine List.ext_getElem? fun k => ?_
  rw [mread_getElem?, getElem?_take, getElem?_drop]
  by_cases hk : k < len
  · rw [if_pos hk, if_pos hk, mwrite_getElem?, if_pos (by omega)]
    have he : pos + k - p = pos - p + k := by omega
    rw [he]
  · rw [if_neg hk, if_neg hk]

theorem mread_mwrite_self (f : List Nat) (p : Nat) (bs : List Nat)
    (h : p + bs.length ≤ f.length) :
    mread (mwrite f p bs) p bs.length = bs := by
  rw [mread_mwrite_inside f p bs p bs.length (Nat.le_refl p) (by omega) h]
  simp

theorem take_add_split (l : List Nat) : ∀ a b : Nat,
    l.take (a + b) = l.take a ++ (l.drop a).take b := by
  induction l with
  | nil => intro a b; simp
  | cons x t ih =>
    intro a b
    cases a with
    | zero => simp
    | succ a' =>
      have he : a' + 1 + b = (a' + b) + 1 := by omega
      rw [he]
      simp only [List.take_succ_cons, List.drop_succ_cons, ih a' b, List.cons_append]

theorem mread_add (f : List Nat) (pos a b : Nat) :
    mread f pos (a + b) = mread f pos a ++ mread f (pos + a) b := by
  simp only [mread, take_add_split, List.drop_drop]

/-- All entries are byte values, as in a real mapped file. -/
def Bytes (f : List Nat) : Prop := ∀ b ∈ f, b < 256

theorem bytes_mread (f : List Nat) (h : Bytes f) (pos len : Nat) : Bytes (mread f pos len) :=
  fun b hb => h b (List.drop_subset _ _ (List.take_subset _ _ hb))

theorem bytes_mwrite (f : List Nat) (p : Nat) (bs : List Nat)
    (hf : Bytes f) (hbs : ∀ b ∈ bs, b < 256) : Bytes (mwrite f p bs) := by
  intro b hb
  rw [List.mem_iff_getElem?] at hb
  obtain ⟨j, hj⟩ := hb
  rw [mwrite_getElem?] at hj
  split at hj
  · exact hbs b (List.getElem?_mem hj)
  · exact hf b (List.getElem?_mem hj)

/-! ### The on-file structures of `mmapipc.py` -/

/-- `MAGIC_NUMBER = 0x50414D4D`. -/
def MAGIC_NUMBER : Nat := 0x50414D4D

/-- `SignBits.OPA = 0x40000000`. -/
def OPA : Nat := 0x40000000

/-- `SignBits.OPB = 0x20000000`. -/
def OPB : Nat := 0x20000000

/-- `SignBits.RST = 0x80000000` (reserved, unused by the protocol). -/
def RST : Nat := 0x80000000

/-- `StructSizes.Header = struct.calcsize("<IIIII") = 20`. -/
def structSizeHeader : Nat := 20

/-- `StructSizes.Buffer = struct.calcsize("<III") = 12`. -/
def structSizeBuffer : Nat := 12

/-- `BufferIndices.InOffset = 0`. -/
def InOffsetIdx : Nat := 0

/-- `BufferIndices.OutOffset = 1`. -/
def OutOffsetIdx : Nat := 1

/-- `MmapIPC.__read_mmap_header`: seek 0, read 20 bytes, unpack
`<IIIII` as `(Magic, Version, Buffer_Base_Point_A, Buffer_Base_Point_B, Sign)`. -/
def readMmapHeader (f : List Nat) : Nat × Nat × Nat × Nat × Nat :=
  (de32 (mread f 0 4), de32 (mread f 4 4), de32 (mread f 8 4),
   de32 (mread f 12 4), de32 (mread f 16 4))

/-- `MmapIPC.__write_mmap_header`: seek 0, write the packed 20-byte header. -/
def writeMmapHeader (f : List Nat) (h : Nat × Nat × Nat × Nat × Nat) : List Nat :=
  mwrite f 0 (le32 h.1 ++ (le32 h.2.1 ++ (le32 h.2.2.1 ++ (le32 h.2.2.2.1 ++ le32 h.2.2.2.2))))

/-- `MmapIPC.__read_buff_header`: seek `buff_ptr`, read 12 bytes, unpack `<III`
as `(InOffset, OutOffset, Size)`. -/
def readBuffHeader (f : List Nat) (buffPtr : Nat) : Nat × Nat × Nat :=
  (de32 (mread f buffPtr 4), de32 (mread f (buffPtr + 4) 4), de32 (mread f (buffPtr + 8) 4))

/-- `MmapIPC.__write_buff_header`: seek `buff_base_ptr`, write the packed
12-byte ring header. -/
def writeBuffHeader (f : List Nat) (buffBasePtr : Nat) (h : Nat × Nat × Nat) : List Nat :=
  mwrite f buffBasePtr (le32 h.1 ++ (le32 h.2.1 ++ le32 h.2.2))

/-- `MmapIPC.__update_buff_offset`: seek `offset_ptr`, write one packed `<I`. -/
def updateBuffOffset (f : List Nat) (offsetPtr offset : Nat) : List Nat :=
  mwrite f offsetPtr (le32 offset)

/-- `MmapIPC.__init_mmap_file`: the freshly created file,
`b"\x00" * (struct_size + (buff_size + 1) * 2)` with
`struct_size = StructSizes.Header + StructSizes.Buffer * 2`. -/
def initMmapFile (buffSize : Nat) : List Nat :=
  List.replicate (structSizeHeader + structSizeBuffer * 2 + (buffSize + 1) * 2) 0

/-- `MmapIPC.__init_mmap_struct`: write the global header
`(MAGIC_NUMBER, 1, buff_base_ptr_A, buff_base_ptr_B, 0)` and both ring
headers `(0, 0, buff_size + 1)`. -/
def initMmapStruct (f : List Nat) (buffSize : Nat) : List Nat :=
  let buffBasePtrA := structSizeHeader
  let buffBasePtrB := buffBasePtrA + structSizeBuffer + buffSize + 1
  let f1 := writeMmapHeader f (MAGIC_NUMBER, 1, buffBasePtrA, buffBasePtrB, 0)
  let f2 := writeBuffHeader f1 buffBasePtrA (0, 0, buffSize + 1)
  writeBuffHeader f2 buffBasePtrB (0, 0, buffSize + 1)

/-- `MmapIPC.__get_buff_base_ptr`, together with the binding at the call
site (`mmapipc.py` line 103):
`self.assign_op, self.recv_buff_base_ptr, self.send_buff_base_ptr = self.__get_buff_base_ptr()`.
The result is `(assign_op, recv_buff_base_ptr, send_buff_base_ptr, file after
the Sign write-back)`; `raise BufferError("This mmap file in use.")` is
modelled by the `error` constructor. -/
def getBuffBasePtr (f : List Nat) : Except String (Nat × Nat × Nat × List Nat) :=
  match readMmapHeader f with
  | (m, v, a, b, sign) =>
    if sign &&& OPA = 0 then
      Except.ok (OPA, a, b, writeMmapHeader f (m, v, a, b, sign ||| OPA))
    else if sign &&& OPB = 0 then
      Except.ok (OPB, b, a, writeMmapHeader f (m, v, a, b, sign ||| OPB))
    else
      Except.error "This mmap file in use."

/-- `MmapIPC.__calc_buff_available_size`.  Python subtraction of possibly
unequal cursors is exact integer arithmetic, so the computation is carried
out in `Int`. -/
def calcBuffAvailableSize (inOffset outOffset buffSize : Int) : Int × Int :=
  if outOffset ≤ inOffset then (buffSize - inOffset, outOffset)
  else (outOffset - inOffset, 0)

/-- Python list/bytes slice `l[:k]` for an `int` index (negative indices
count from the end, clamped at 0). -/
def pySliceTo (l : List Nat) (k : Int) : List Nat :=
  if 0 ≤ k then l.take k.toNat else l.take (l.length - (-k).toNat)

/-- Python list/bytes slice `l[k:]` for an `int` index (negative indices
count from the end, clamped at 0). -/
def pySliceFrom (l : List Nat) (k : Int) : List Nat :=
  if 0 ≤ k then l.drop k.toNat else l.drop (l.length - (-k).toNat)

/-- `MmapIPC.send(data, blocking=False)` on the send ring at `base`
(`self.send_buff_base_ptr`): returns `(return value, file after the call)`.
The `blocking=True` polling loop only re-reads the same header and is not
entered on the modelled path. -/
def send (f : List Nat) (base : Nat) (data : List Nat) : Nat × List Nat :=
  let h := readBuffHeader f base
  let inO := h.1
  let outO := h.2.1
  let size := h.2.2
  let fb := calcBuffAvailableSize (inO : Int) (outO : Int) (size : Int)
  let total := fb.1 + fb.2
  let dataSize := data.length
  let requireSize : Int := (dataSize : Int) + 4
  if total < requireSize then (0, f)
  else
    let frame := le32 dataSize ++ data
    let lenF : Int := min requireSize fb.1
    let f1 := mwrite f (base + structSizeBuffer + inO) (pySliceTo frame lenF)
    let lenB : Int := (dataSize : Int) - lenF
    let f2 :=
      if 0 < lenB then mwrite f1 (base + structSizeBuffer) (pySliceFrom frame lenF) else f1
    let inO2 := (inO + (dataSize + 4)) % size
    (dataSize, updateBuffOffset f2 (base + InOffsetIdx * 4) inO2)

/-- `MmapIPC.recv(blocking=False)` on the receive ring at `base`
(`self.recv_buff_base_ptr`): returns `(return value, file after the call)`.
`pr` is the pair (4 raw length bytes, mmap position after reading them);
`mmap.read` truncating at the end of the mapping is reproduced by `mread`. -/
def recv (f : List Nat) (base : Nat) : Option (List Nat) × List Nat :=
  let h := readBuffHeader f base
  let inO := h.1
  let outO := h.2.1
  let size := h.2.2
  if inO = outO then (none, f)
  else
    let tailReadLen := size - outO
    let pr :=
      if tailReadLen < 4 then
        (mread f (base + structSizeBuffer + outO) tailReadLen ++
           mread f (base + structSizeBuffer) (4 - tailReadLen),
         base + structSizeBuffer + (4 - tailReadLen))
      else
        (mread f (base + structSizeBuffer + outO) 4, base + structSizeBuffer + outO + 4)
    let dataSize := de32 pr.1
    let lenF0 : Int := min (dataSize : Int) ((size : Int) - ((outO : Int) + 4))
    let lenF : Int := if lenF0 ≤ 0 then (dataSize : Int) else lenF0
    let d0 := mread f pr.2 lenF.toNat
    let lenB : Int := (dataSize : Int) - (d0.length : Int)
    let d :=
      if 0 < lenB then d0 ++ mread f (base + structSizeBuffer) (dataSize - d0.length) else d0
    let outO2 := (outO + 4 + dataSize) % size
    (some d, updateBuffOffset f (base + OutOffsetIdx * 4) outO2)

/-- `MmapIPC.__del__` when `self.is_initialized` holds: clear this
endpoint's OP bit in Sign and zero both cursors of the receive ring.
Python `sign &= ~assign_op` on nonnegative ints equals
`sign - (sign &&& assign_op)`: the bits of `sign &&& assign_op` and of
`sign &&& ~assign_op` partition the bits of `sign`, so their values add up
to `sign` without carries. -/
def delEndpoint (f : List Nat) (assignOp recvBuffBasePtr : Nat) : List Nat :=
  match readMmapHeader f with
  | (m, v, a, b, sign) =>
    let f1 := writeMmapHeader f (m, v, a, b, sign - (sign &&& assignOp))
    match readBuffHeader f1 recvBuffBasePtr with
    | (_, _, size) => writeBuffHeader f1 recvBuffBasePtr (0, 0, size)

/-- The three-way branch of `MmapIPC.__init__` on the Magic field
(`mmapipc.py` lines 91-97): `initLayout` when Magic is 0, `badMagic`
(raise `BufferError`) when Magic is neither `MAGIC_NUMBER` nor 0,
otherwise fall through. -/
inductive MagicBranch : Type where
  | initLayout : MagicBranch
  | badMagic : MagicBranch
  | passThrough : MagicBranch
deriving DecidableEq

/-- The branch `MmapIPC.__init__` takes on an observed Magic value. -/
def magicCheck (m : Nat) : MagicBranch :=
  if m = 0 then MagicBranch.initLayout
  else if ¬(m = MAGIC_NUMBER ∨ m = 0) then MagicBranch.badMagic
  else MagicBranch.passThrough

/-- Hexadecimal digits of `n`, most significant first, no leading zeros:
the digits of Python `hex(n)[2:]`.  (Fuel-based recursion on `n / 16`;
`n` itself is always sufficient fuel.) -/
def hexDigitsAux : Nat → Nat → List Nat
  | 0, _ => []
  | _ + 1, 0 => []
  | fuel + 1, n + 1 => hexDigitsAux fuel ((n + 1) / 16) ++ [(n + 1) % 16]

/-- Digits of Python `hex(n)[2:]`. -/
def pyHexDigits (n : Nat) : List Nat :=
  if n = 0 then [0] else hexDigitsAux n n

/-- `bytes.fromhex`: `none` models the `ValueError` raised on an odd
number of hex digits; otherwise each digit pair becomes one byte. -/
def hexPairsToBytes : List Nat → List Nat
  | d1 :: d2 :: rest => (16 * d1 + d2) :: hexPairsToBytes rest
  | _ => []

def bytesFromHex (ds : List Nat) : Option (List Nat) :=
  if ds.length % 2 = 0 then some (hexPairsToBytes ds) else none

/-- The byte string interpolated into the bad-magic error message,
`bytes.fromhex(hex(magic)[2:])[::-1]` (`mmapipc.py` line 96); `none` models
the `ValueError` escaping from `bytes.fromhex` before any `BufferError`
is raised. -/
def badMagicMessageBytes (magic : Nat) : Option (List Nat) :=
  (bytesFromHex (pyHexDigits magic)).map List.reverse

/-! ### Shared concrete example state: a freshly initialized file with
`buff_size = 16` (ring size 17), ring A at byte 20, ring B at byte 49. -/

def file16 : List Nat := initMmapStruct (initMmapFile 16) 16

/-! ### Claim C3 -/

/-- Claim C3 is false as stated: at `in = out = 0`, `size = 2` the code
computes `front + back = (size - in) + out = 2`, but
`size - 1 - ((in - out) mod size) = 1`. -/
theorem c3_counterexample :
    (calcBuffAvailableSize 0 0 2).1 + (calcBuffAvailableSize 0 0 2).2 ≠
      2 - 1 - ((0 - 0) % 2 : Int) := by decide

/-- Claim C3, amended: for cursors `in, out` in `[0, size)`, the total
available space computed by `__calc_buff_available_size` (front + back per
the two-case rule) equals `size - ((in - out) mod size)` — one more byte
than the `size - 1 - ((in - out) mod size)` stated in the spec. -/
theorem c3_total_available (inO outO size : Int)
    (h1 : 0 ≤ inO) (h2 : inO < size) (h3 : 0 ≤ outO) (h4 : outO < size) :
    (calcBuffAvailableSize inO outO size).1 + (calcBuffAvailableSize inO outO size).2 =
      size - (inO - outO) % size := by
  unfold calcBuffAvailableSize
  by_cases hc : outO ≤ inO
  · rw [if_pos hc]
    have he : (inO - outO) % size = inO - outO := Int.emod_eq_of_lt (by omega) (by omega)
    rw [he]
    show size - inO + outO = size - (inO - outO)
    omega
  · rw [if_neg hc]
    have h5 : (inO - outO + size) % size = (inO - outO) % size := by
      have := Int.add_mul_emod_self_left (inO - outO) size 1
      rw [mul_one] at this
      exact this
    have h6 : (inO - outO + size) % size = inO - outO + size :=
      Int.emod_eq_of_lt (by omega) (by omega)
    rw [← h5, h6]
    show outO - inO + 0 = size - (inO - outO + size)
    omega

theorem c3_total_available_witness :
    (calcBuffAvailableSize 1 0 4).1 + (calcBuffAvailableSize 1 0 4).2 =
      4 - (1 - 0) % 4 :=
  c3_total_available 1 0 4 (by decide) (by decide) (by decide) (by decide)

/-! ### Claim C8 -/

/-- Claim C8: a non-blocking `send` returns 0 and leaves the file
untouched whenever the computed available space is below
`len(data) + 4`, and a non-blocking `recv` returns `None` and leaves the
file untouched whenever `InOffset == OutOffset`. -/
theorem c8_nonblocking (f : List Nat) (base : Nat) (data : List Nat) (i o s : Nat)
    (h : readBuffHeader f base = (i, o, s)) :
    ((calcBuffAvailableSize (i : Int) (o : Int) (s : Int)).1 +
        (calcBuffAvailableSize (i : Int) (o : Int) (s : Int)).2 <
        (data.length : Int) + 4 →
      send f base data = (0, f)) ∧
    (i = o → recv f base = (none, f)) := by
  constructor
  · intro hlt
    unfold send
    rw [h]
    exact if_pos hlt
  · intro heq
    unfold recv
    rw [h]
    exact if_pos heq

theorem c8_nonblocking_witness :
    send file16 20 (List.replicate 14 2) = (0, file16) ∧
    recv file16 20 = (none, file16) :=
  ⟨(c8_nonblocking file16 20 (List.replicate 14 2) 0 0 17 (by decide)).1 (by decide),
   (c8_nonblocking file16 20 (List.replicate 14 2) 0 0 17 (by decide)).2 rfl⟩

/-! ### Claim C2 -/

/-- Claim C2 is false as stated: on a fresh file (Sign = 0,
BasePtrA = 20, BasePtrB = 49) the endpoint claims role A (`assign_op =
OPA`), but it records `send_buff_base_ptr = 49 = BasePtrB` and
`recv_buff_base_ptr = 20 = BasePtrA` — the opposite of the claimed
`send-base = BasePtrA`, `recv-base = BasePtrB`.  (This matches the diagram
at the top of `mmapipc.py`: endpoint A sends into Single Buffer B.) -/
theorem c2_counterexample :
    (getBuffBasePtr file16).toOption.map (fun r => (r.1, r.2.1, r.2.2.1)) =
      some (OPA, 20, 49) ∧
    (readMmapHeader file16).2.2.1 = 20 ∧
    (readMmapHeader file16).2.2.2.1 = 49 ∧
    (49 : Nat) ≠ 20 :=
  ⟨by decide, by decide, by decide, by decide⟩

/-- Claim C2, amended: if OPA is not set in Sign the endpoint claims role
A (`assign_op = OPA`), sets OPA in Sign and records
recv-base = BasePtrA, send-base = BasePtrB; else if OPB is not set it
claims role B with recv-base = BasePtrB, send-base = BasePtrA; else (both
bits set) the constructor fails with the "in use" error. -/
theorem c2_role_assignment (f : List Nat) (m v a b sign : Nat)
    (h : readMmapHeader f = (m, v, a, b, sign)) :
    (sign &&& OPA = 0 →
      getBuffBasePtr f =
        Except.ok (OPA, a, b, writeMmapHeader f (m, v, a, b, sign ||| OPA))) ∧
    (sign &&& OPA ≠ 0 → sign &&& OPB = 0 →
      getBuffBasePtr f =
        Except.ok (OPB, b, a, writeMmapHeader f (m, v, a, b, sign ||| OPB))) ∧
    (sign &&& OPA ≠ 0 → sign &&& OPB ≠ 0 →
      getBuffBasePtr f = Except.error "This mmap file in use.") := by
  unfold getBuffBasePtr
  rw [h]
  dsimp only
  refine ⟨fun h1 => ?_, fun h1 h2 => ?_, fun h1 h2 => ?_⟩
  · rw [if_pos h1]
  · rw [if_neg h1, if_pos h2]
  · rw [if_neg h1, if_neg h2]

theorem c2_role_assignment_witness :
    getBuffBasePtr file16 =
      Except.ok (OPA, 20, 49,
        writeMmapHeader file16 (MAGIC_NUMBER, 1, 20, 49, 0 ||| OPA)) :=
  (c2_role_assignment file16 MAGIC_NUMBER 1 20 49 0 (by decide)).1 (by decide)

/-! ### Claim C6 -/

/-- Claim C6 is false on the code; the code is the slip.  For
Magic = 0x00414D4D the constructor takes the bad-magic branch, but the
message shows only 3 bytes (`hex()` drops the leading zero byte), not the
4 observed file bytes `[0x4D, 0x4D, 0x41, 0x00]`.  For Magic = 0x123 the
hex-digit string has odd length, so `bytes.fromhex` raises a `ValueError`
(modelled as `none`) and no bad-magic `BufferError` is produced at all. -/
theorem c6_bad_magic_message :
    magicCheck 0x414D4D = MagicBranch.badMagic ∧
    badMagicMessageBytes 0x414D4D = some [0x4D, 0x4D, 0x41] ∧
    le32 0x414D4D = [0x4D, 0x4D, 0x41, 0x00] ∧
    some [0x4D, 0x4D, 0x41] ≠ some [0x4D, 0x4D, 0x41, 0x00] ∧
    magicCheck 0x123 = MagicBranch.badMagic ∧
    badMagicMessageBytes 0x123 = none :=
  ⟨by decide, by decide, by decide, by decide, by decide, by decide⟩

/-! ### Claim C1 -/

/-- Claim C1 is false on the code; the round-trip is the code's clear
intent, so this is a code bug.  On a fresh `buff_size = 16` file
(ring size 17), `send` of a 13-byte payload (≤ P = 16, frame = 17 = Size)
"succeeds" — it returns `len(d) = 13` — but advances `InOffset` by
`17 mod 17 = 0`, so the ring still reads as empty and the peer's `recv`
returns `None` instead of the payload: the message is lost. -/
theorem c1_full_frame_send_lost :
    (send file16 20 (List.replicate 13 7)).1 = 13 ∧
    readBuffHeader (send file16 20 (List.replicate 13 7)).2 20 = (0, 0, 17) ∧
    (recv (send file16 20 (List.replicate 13 7)).2 20).1 = none ∧
    (none : Option (List Nat)) ≠ some (List.replicate 13 7) :=
  ⟨by decide, by decide, by decide, by decide⟩

/-! ### Claim C4 -/

/-- The reachable state used for claim C4: on a fresh ring (size 17) send
9 bytes and receive them, leaving `InOffset = OutOffset = 13`. -/
def file16Wrapped : List Nat := (recv (send file16 20 (List.replicate 9 1)).2 20).2

/-- Claim C4 is false on the code; the two-segment copy is the code's
clear intent, so this is a code bug.  From the reachable state
`in = out = 13`, `size = 17`, sending 4 bytes `[5,5,5,5]` (frame = 8,
front = 4, total available = 17 ≥ 8) writes the first
`min(frame, front) = 4` bytes (the length prefix) at `base + 12 + 13` and
advances `in` to `(13 + 8) mod 17 = 4`, but the 4-byte wrap remainder —
the whole payload — is never written: the guard uses
`len_b = data_size - len_f = 0` instead of `require_size - len_f = 4`,
so ring bytes 0..3 (file offsets 32..35) keep their stale value
`[9, 0, 0, 0]` instead of `[5, 5, 5, 5]`. -/
theorem c4_wrap_remainder_skipped :
    readBuffHeader file16Wrapped 20 = (13, 13, 17) ∧
    (send file16Wrapped 20 [5, 5, 5, 5]).1 = 4 ∧
    readBuffHeader (send file16Wrapped 20 [5, 5, 5, 5]).2 20 = (4, 13, 17) ∧
    mread (send file16Wrapped 20 [5, 5, 5, 5]).2 45 4 = le32 4 ∧
    mread (send file16Wrapped 20 [5, 5, 5, 5]).2 32 4 = mread file16Wrapped 32 4 ∧
    mread file16Wrapped 32 4 = [9, 0, 0, 0] ∧
    ([9, 0, 0, 0] : List Nat) ≠ [5, 5, 5, 5] :=
  ⟨by decide, by decide, by decide, by decide, by decide, by decide, by decide⟩

/-! ### Claim C5 -/

/-- The state used for claim C5: ring A (base 20, size 17) holds one
correctly laid-out frame with `out = 13`: the 4-byte length prefix
`le32 4` occupies ring offsets 13..16 (file offsets 45..48), so the
prefix ends exactly at the ring boundary, and the 4-byte payload
`[9,9,9,9]` wraps to ring offsets 0..3 (file offsets 32..35);
`in = (13 + 8) mod 17 = 4`. -/
def fileC5 : List Nat :=
  mwrite (mwrite (writeBuffHeader file16 20 (4, 13, 17)) 45 (le32 4)) 32 [9, 9, 9, 9]

/-- Claim C5 is false on the code; the straddle handling is the code's
clear intent, so this is a code bug.  With `out = size - 4 = 13` the
length prefix is read correctly (L = 4), but then
`len_f = min(L, size - (out + 4)) = 0` triggers the `len_f <= 0` reset to
`L`, and the payload is read from the position after the prefix —
file offset `base + 12 + size = 49`, *past the end of the ring* (the
peer ring's header) — instead of wrapping to ring offset 0.  `recv`
returns those foreign bytes `[0,0,0,0]`, not the stored payload
`[9,9,9,9]`. -/
theorem c5_prefix_at_boundary_reads_past_ring :
    readBuffHeader fileC5 20 = (4, 13, 17) ∧
    mread fileC5 45 4 = le32 4 ∧
    mread fileC5 32 4 = [9, 9, 9, 9] ∧
    (recv fileC5 20).1 = some (mread fileC5 49 4) ∧
    mread fileC5 49 4 = [0, 0, 0, 0] ∧
    (recv fileC5 20).1 ≠ some [9, 9, 9, 9] :=
  ⟨by decide, by decide, by decide, by decide, by decide, by decide⟩

/-! ### Further memory lemmas for the structural claims -/

theorem mread_length (f : List Nat) (pos len : Nat) :
    (mread f pos len).length = min len (f.length - pos) := by
  simp [mread]

theorem mread_length_of_le (f : List Nat) (pos len : Nat) (h : pos + len ≤ f.length) :
    (mread f pos len).length = len := by
  rw [mread_length]
  omega

/-- Writing back a prefix the file already holds, followed by fresh bytes,
is the same as writing only the fresh bytes. -/
theorem mwrite_own_head (f : List Nat) (k : Nat) (bs : List Nat)
    (hk : k ≤ f.length) :
    mwrite f 0 (mread f 0 k ++ bs) = mwrite f k bs := by
  have hlen : (mread f 0 k).length = k := by
    rw [mread_length]
    omega
  refine List.ext_getElem? fun j => ?_
  rw [mwrite_getElem?, mwrite_getElem?]
  by_cases hj1 : j < k
  · have hjf : j < f.length := by omega
    rw [if_pos (by simp only [List.length_append, hlen]; omega), if_neg (by omega),
      List.getElem?_append_left (by omega), Nat.sub_zero, mread_getElem?, if_pos hj1,
      Nat.zero_add]
  · by_cases hj2 : j < k + bs.length ∧ j < f.length
    · rw [if_pos (by simp only [List.length_append, hlen]; omega), if_pos (by omega),
        List.getElem?_append_right (by omega), Nat.sub_zero, hlen]
    · rw [if_neg (by simp only [List.length_append, hlen]; omega), if_neg (by omega)]

/-- A write of a concatenation is two consecutive writes. -/
theorem mwrite_append_split (f : List Nat) (p : Nat) (xs ys : List Nat) :
    mwrite f p (xs ++ ys) = mwrite (mwrite f p xs) (p + xs.length) ys := by
  refine List.ext_getElem? fun j => ?_
  rw [mwrite_getElem?, mwrite_getElem?, mwrite_getElem?, mwrite_length]
  by_cases hj1 : p ≤ j ∧ j < p + xs.length ∧ j < f.length
  · rw [if_pos (by simp only [List.length_append]; omega), if_neg (by omega), if_pos hj1,
      List.getElem?_append_left (by omega)]
  · by_cases hj2 : p + xs.length ≤ j ∧ j < p + xs.length + ys.length ∧ j < f.length
    · rw [if_pos (by simp only [List.length_append]; omega), if_pos (by omega),
        List.getElem?_append_right (by omega)]
      have he : j - p - xs.length = j - (p + xs.length) := by omega
      rw [he]
    · rw [if_neg (by simp only [List.length_append]; omega), if_neg (by omega), if_neg hj1]

/-- Writing back exactly the bytes already present changes nothing. -/
theorem mwrite_self_read (f : List Nat) (q n : Nat) (h : q + n ≤ f.length) :
    mwrite f q (mread f q n) = f := by
  have hlen : (mread f q n).length = n := mread_length_of_le f q n h
  refine List.ext_getElem? fun j => ?_
  rw [mwrite_getElem?]
  by_cases hj : q ≤ j ∧ j < q + (mread f q n).length ∧ j < f.length
  · rw [if_pos hj, mread_getElem?, if_pos (by omega)]
    have he : q + (j - q) = j := by omega
    rw [he]
  · rw [if_neg hj]

theorem take4_le32_append (x : Nat) (rest : List Nat) :
    (le32 x ++ rest).take 4 = le32 x :=
  List.take_left' (le32_length x)

theorem take4_le32 (x : Nat) : (le32 x).take 4 = le32 x := by
  simp [le32]

theorem drop4_le32_append (x : Nat) (rest : List Nat) :
    (le32 x ++ rest).drop 4 = rest :=
  List.drop_left' (le32_length x)

theorem drop_add4_le32_append (x : Nat) (rest : List Nat) (n : Nat) :
    (le32 x ++ rest).drop (4 + n) = rest.drop n := by
  rw [← List.drop_drop, drop4_le32_append]

theorem headerBlock_length (x1 x2 x3 x4 x5 : Nat) :
    (le32 x1 ++ (le32 x2 ++ (le32 x3 ++ (le32 x4 ++ le32 x5)))).length = 20 := by
  simp [le32]

theorem buffBlock_length (x1 x2 x3 : Nat) :
    (le32 x1 ++ (le32 x2 ++ le32 x3)).length = 12 := by
  simp [le32]

theorem readMmapHeader_write (g : List Nat) (x1 x2 x3 x4 x5 : Nat)
    (hlen : 20 ≤ g.length)
    (h1 : x1 < 4294967296) (h2 : x2 < 4294967296) (h3 : x3 < 4294967296)
    (h4 : x4 < 4294967296) (h5 : x5 < 4294967296) :
    readMmapHeader (writeMmapHeader g (x1, x2, x3, x4, x5)) = (x1, x2, x3, x4, x5) := by
  unfold readMmapHeader writeMmapHeader
  dsimp only
  have hbl := headerBlock_length x1 x2 x3 x4 x5
  rw [mread_mwrite_inside g 0 _ 0 4 (by omega) (by rw [hbl]; omega) (by omega),
    mread_mwrite_inside g 0 _ 4 4 (by omega) (by rw [hbl]; omega) (by omega),
    mread_mwrite_inside g 0 _ 8 4 (by omega) (by rw [hbl]; omega) (by omega),
    mread_mwrite_inside g 0 _ 12 4 (by omega) (by rw [hbl]; omega) (by omega),
    mread_mwrite_inside g 0 _ 16 4 (by omega) (by rw [hbl]) (by omega)]
  rw [Nat.sub_zero, Nat.sub_zero, Nat.sub_zero, Nat.sub_zero, Nat.sub_zero]
  rw [List.drop_zero, take4_le32_append]
  rw [show (4 : Nat) = 4 + 0 from rfl, drop_add4_le32_append, List.drop_zero,
    take4_le32_append]
  rw [show (8 : Nat) = 4 + 4 from rfl, drop_add4_le32_append,
    show (4 : Nat) = 4 + 0 from rfl, drop_add4_le32_append, List.drop_zero,
    take4_le32_append]
  rw [show (12 : Nat) = 4 + 8 from rfl, drop_add4_le32_append,
    show (8 : Nat) = 4 + 4 from rfl, drop_add4_le32_append,
    show (4 : Nat) = 4 + 0 from rfl, drop_add4_le32_append, List.drop_zero,
    take4_le32_append]
  rw [show (16 : Nat) = 4 + 12 from rfl, drop_add4_le32_append,
    show (12 : Nat) = 4 + 8 from rfl, drop_add4_le32_append,
    show (8 : Nat) = 4 + 4 from rfl, drop_add4_le32_append,
    show (4 : Nat) = 4 + 0 from rfl, drop_add4_le32_append, List.drop_zero, take4_le32]
  rw [de32_le32 x1 h1, de32_le32 x2 h2, de32_le32 x3 h3, de32_le32 x4 h4, de32_le32 x5 h5]

theorem readBuffHeader_write (g : List Nat) (p x1 x2 x3 : Nat)
    (hlen : p + 12 ≤ g.length)
    (h1 : x1 < 4294967296) (h2 : x2 < 4294967296) (h3 : x3 < 4294967296) :
    readBuffHeader (writeBuffHeader g p (x1, x2, x3)) p = (x1, x2, x3) := by
  unfold readBuffHeader writeBuffHeader
  dsimp only
  have hbl := buffBlock_length x1 x2 x3
  rw [mread_mwrite_inside g p _ p 4 (by omega) (by rw [hbl]; omega) (by rw [hbl]; omega),
    mread_mwrite_inside g p _ (p + 4) 4 (by omega) (by rw [hbl]; omega) (by rw [hbl]; omega),
    mread_mwrite_inside g p _ (p + 8) 4 (by omega) (by rw [hbl]) (by rw [hbl]; omega)]
  rw [Nat.sub_self, List.drop_zero, take4_le32_append]
  rw [Nat.add_sub_cancel_left, show (4 : Nat) = 4 + 0 from rfl, drop_add4_le32_append,
    List.drop_zero, take4_le32_append]
  rw [Nat.add_sub_cancel_left, show (8 : Nat) = 4 + 4 from rfl, drop_add4_le32_append,
    show (4 : Nat) = 4 + 0 from rfl, drop_add4_le32_append, List.drop_zero, take4_le32]
  rw [de32_le32 x1 h1, de32_le32 x2 h2, de32_le32 x3 h3]

theorem readMmapHeader_mwrite_after (g : List Nat) (p : Nat) (bs : List Nat)
    (hp : 20 ≤ p) :
    readMmapHeader (mwrite g p bs) = readMmapHeader g := by
  unfold readMmapHeader
  rw [mread_mwrite_before g p bs 0 4 (by omega), mread_mwrite_before g p bs 4 4 (by omega),
    mread_mwrite_before g p bs 8 4 (by omega), mread_mwrite_before g p bs 12 4 (by omega),
    mread_mwrite_before g p bs 16 4 (by omega)]

theorem readBuffHeader_mwrite_before (g : List Nat) (p : Nat) (bs : List Nat) (base : Nat)
    (h : base + 12 ≤ p) :
    readBuffHeader (mwrite g p bs) base = readBuffHeader g base := by
  unfold readBuffHeader
  rw [mread_mwrite_before g p bs base 4 (by omega),
    mread_mwrite_before g p bs (base + 4) 4 (by omega),
    mread_mwrite_before g p bs (base + 8) 4 (by omega)]

theorem readBuffHeader_mwrite_after (g : List Nat) (p : Nat) (bs : List Nat) (base : Nat)
    (h : p + bs.length ≤ base) :
    readBuffHeader (mwrite g p bs) base = readBuffHeader g base := by
  unfold readBuffHeader
  rw [mread_mwrite_after g p bs base 4 (by omega),
    mread_mwrite_after g p bs (base + 4) 4 (by omega),
    mread_mwrite_after g p bs (base + 8) 4 (by omega)]

theorem writeMmapHeader_length (g : List Nat) (h : Nat × Nat × Nat × Nat × Nat) :
    (writeMmapHeader g h).length = g.length :=
  mwrite_length g _ _

theorem writeBuffHeader_length (g : List Nat) (p : Nat) (h : Nat × Nat × Nat) :
    (writeBuffHeader g p h).length = g.length :=
  mwrite_length g _ _

theorem readMmapHeader_writeBuffHeader (g : List Nat) (p : Nat) (t : Nat × Nat × Nat)
    (hp : 20 ≤ p) :
    readMmapHeader (writeBuffHeader g p t) = readMmapHeader g := by
  unfold writeBuffHeader
  exact readMmapHeader_mwrite_after g p _ hp

theorem readBuffHeader_writeBuffHeader_before (g : List Nat) (p : Nat) (t : Nat × Nat × Nat)
    (base : Nat) (h : base + 12 ≤ p) :
    readBuffHeader (writeBuffHeader g p t) base = readBuffHeader g base := by
  unfold writeBuffHeader
  exact readBuffHeader_mwrite_before g p _ base h

/-! ### Claim C10 -/

/-- Claim C10: a missing file is created as
`H + 2*(B + P + 1) = 44 + 2*(P + 1)` zero bytes, and the first attach
observing Magic = 0 writes Magic = 0x50414D4D, Version = 1,
BasePtrA = 20, BasePtrB = 20 + 12 + P + 1, Sign = 0 and both ring
headers `(InOffset, OutOffset, Size) = (0, 0, P + 1)`. -/
theorem c10_init_layout (P : Nat) (hP : P + 33 < 4294967296) :
    (initMmapFile P).length = 44 + 2 * (P + 1) ∧
    (∀ b ∈ initMmapFile P, b = 0) ∧
    readMmapHeader (initMmapStruct (initMmapFile P) P) =
      (MAGIC_NUMBER, 1, 20, 20 + 12 + P + 1, 0) ∧
    readBuffHeader (initMmapStruct (initMmapFile P) P) 20 = (0, 0, P + 1) ∧
    readBuffHeader (initMmapStruct (initMmapFile P) P) (20 + 12 + P + 1) = (0, 0, P + 1) := by
  have hfl : (initMmapFile P).length = 44 + (P + 1) * 2 := by
    simp [initMmapFile, structSizeHeader, structSizeBuffer]
  refine ⟨by rw [hfl]; omega, fun b hb => List.eq_of_mem_replicate hb, ?_, ?_, ?_⟩
  · unfold initMmapStruct
    simp only [structSizeHeader, structSizeBuffer]
    rw [readMmapHeader_writeBuffHeader _ _ _ (by omega),
      readMmapHeader_writeBuffHeader _ _ _ (by omega),
      readMmapHeader_write _ _ _ _ _ _ (by omega) (by norm_num [MAGIC_NUMBER])
        (by omega) (by omega) (by omega) (by omega)]
  · unfold initMmapStruct
    simp only [structSizeHeader, structSizeBuffer]
    rw [readBuffHeader_writeBuffHeader_before _ _ _ _ (by omega),
      readBuffHeader_write _ _ _ _ _ (by rw [writeMmapHeader_length, hfl]; omega)
        (by omega) (by omega) (by omega)]
  · unfold initMmapStruct
    simp only [structSizeHeader, structSizeBuffer]
    rw [readBuffHeader_write _ _ _ _ _
        (by rw [writeBuffHeader_length, writeMmapHeader_length, hfl]; omega)
        (by omega) (by omega) (by omega)]

theorem c10_init_layout_witness :
    (initMmapFile 16).length = 44 + 2 * (16 + 1) ∧
    (∀ b ∈ initMmapFile 16, b = 0) ∧
    readMmapHeader (initMmapStruct (initMmapFile 16) 16) =
      (MAGIC_NUMBER, 1, 20, 20 + 12 + 16 + 1, 0) ∧
    readBuffHeader (initMmapStruct (initMmapFile 16) 16) 20 = (0, 0, 16 + 1) ∧
    readBuffHeader (initMmapStruct (initMmapFile 16) 16) (20 + 12 + 16 + 1) =
      (0, 0, 16 + 1) :=
  c10_init_layout 16 (by decide)

/-! ### Claim C9 -/

/-- Clearing the OPA bit: `s - (s &&& OPA)` keeps bits 0..29 (`% 2^30`)
and bit 31 (`/ 2^31`) and zeroes bit 30. -/
theorem clear_opa_bits (s : Nat) :
    (s - (s &&& OPA)) % 2 ^ 30 = s % 2 ^ 30 ∧
    (s - (s &&& OPA)) / 2 ^ 31 = s / 2 ^ 31 ∧
    (s - (s &&& OPA)) / 2 ^ 30 % 2 = 0 := by
  have ho : OPA = 2 ^ 30 := by norm_num [OPA]
  have h : s &&& OPA = (decide (s / 2 ^ 30 % 2 = 1)).toNat * 2 ^ 30 := by
    rw [ho, Nat.and_two_pow, Nat.testBit_to_div_mod]
  by_cases hb : s / 2 ^ 30 % 2 = 1
  · have h2 : s &&& OPA = 2 ^ 30 := by rw [h, decide_eq_true hb]; rfl
    rw [h2]
    refine ⟨?_, ?_, ?_⟩ <;> omega
  · have h2 : s &&& OPA = 0 := by rw [h, decide_eq_false hb]; rfl
    rw [h2]
    refine ⟨?_, ?_, ?_⟩ <;> omega

/-- Clearing the OPB bit: `s - (s &&& OPB)` keeps bits 0..28 (`% 2^29`)
and bits 30..31 (`/ 2^30`) and zeroes bit 29. -/
theorem clear_opb_bits (s : Nat) :
    (s - (s &&& OPB)) % 2 ^ 29 = s % 2 ^ 29 ∧
    (s - (s &&& OPB)) / 2 ^ 30 = s / 2 ^ 30 ∧
    (s - (s &&& OPB)) / 2 ^ 29 % 2 = 0 := by
  have ho : OPB = 2 ^ 29 := by norm_num [OPB]
  have h : s &&& OPB = (decide (s / 2 ^ 29 % 2 = 1)).toNat * 2 ^ 29 := by
    rw [ho, Nat.and_two_pow, Nat.testBit_to_div_mod]
  by_cases hb : s / 2 ^ 29 % 2 = 1
  · have h2 : s &&& OPB = 2 ^ 29 := by rw [h, decide_eq_true hb]; rfl
    rw [h2]
    refine ⟨?_, ?_, ?_⟩ <;> omega
  · have h2 : s &&& OPB = 0 := by rw [h, decide_eq_false hb]; rfl
    rw [h2]
    refine ⟨?_, ?_, ?_⟩ <;> omega

theorem mwrite_le32_append (g : List Nat) (p x : Nat) (rest : List Nat) :
    mwrite g p (le32 x ++ rest) = mwrite (mwrite g p (le32 x)) (p + 4) rest := by
  rw [mwrite_append_split, le32_length]

theorem header_prefix_block (f : List Nat) (rest : List Nat) :
    mread f 0 4 ++ (mread f 4 4 ++ (mread f 8 4 ++ (mread f 12 4 ++ rest))) =
      mread f 0 16 ++ rest := by
  rw [show (16 : Nat) = 4 + 12 from rfl, mread_add]
  rw [show (12 : Nat) = 4 + 8 from rfl, mread_add]
  rw [show (8 : Nat) = 4 + 4 from rfl, mread_add]
  norm_num [List.append_assoc]

/-- `__del__` of an attached endpoint, in normal form: the only bytes that
change are the Sign word at offset 16 (its `assign_op` bit cleared) and the
8 cursor bytes at the start of the receive ring's header (zeroed). -/
theorem delEndpoint_eq (f : List Nat) (op rb : Nat)
    (hbytes : Bytes f) (hrb : 20 ≤ rb) (hlen : rb + 12 ≤ f.length) :
    delEndpoint f op rb =
      mwrite (mwrite f 16 (le32 (de32 (mread f 16 4) - (de32 (mread f 16 4) &&& op))))
        rb (le32 0 ++ le32 0) := by
  have hm : le32 (de32 (mread f 0 4)) = mread f 0 4 :=
    le32_de32 _ (mread_length_of_le f 0 4 (by omega)) (bytes_mread f hbytes 0 4)
  have hv : le32 (de32 (mread f 4 4)) = mread f 4 4 :=
    le32_de32 _ (mread_length_of_le f 4 4 (by omega)) (bytes_mread f hbytes 4 4)
  have ha : le32 (de32 (mread f 8 4)) = mread f 8 4 :=
    le32_de32 _ (mread_length_of_le f 8 4 (by omega)) (bytes_mread f hbytes 8 4)
  have hb2 : le32 (de32 (mread f 12 4)) = mread f 12 4 :=
    le32_de32 _ (mread_length_of_le f 12 4 (by omega)) (bytes_mread f hbytes 12 4)
  unfold delEndpoint writeMmapHeader writeBuffHeader
  dsimp only [readMmapHeader, readBuffHeader]
  rw [hm, hv, ha, hb2]
  rw [header_prefix_block]
  rw [mwrite_own_head f 16 _ (by omega)]
  have hglen : (mwrite f 16
      (le32 (de32 (mread f 16 4) - (de32 (mread f 16 4) &&& op)))).length = f.length :=
    mwrite_length f _ _
  have hgbytes : Bytes (mwrite f 16
      (le32 (de32 (mread f 16 4) - (de32 (mread f 16 4) &&& op)))) :=
    bytes_mwrite f 16 _ hbytes (le32_bytes _)
  rw [mwrite_le32_append, mwrite_le32_append]
  rw [show rb + 4 + 4 = rb + 8 from by omega]
  have hread : mread (mwrite (mwrite (mwrite f 16
        (le32 (de32 (mread f 16 4) - (de32 (mread f 16 4) &&& op)))) rb (le32 0))
        (rb + 4) (le32 0)) (rb + 8) 4 =
      mread (mwrite f 16
        (le32 (de32 (mread f 16 4) - (de32 (mread f 16 4) &&& op)))) (rb + 8) 4 := by
    rw [mread_mwrite_after _ _ _ _ _ (by rw [le32_length]),
      mread_mwrite_after _ _ _ _ _ (by rw [le32_length]; omega)]
  have hrt : le32 (de32 (mread (mwrite f 16
        (le32 (de32 (mread f 16 4) - (de32 (mread f 16 4) &&& op)))) (rb + 8) 4)) =
      mread (mwrite f 16
        (le32 (de32 (mread f 16 4) - (de32 (mread f 16 4) &&& op)))) (rb + 8) 4 :=
    le32_de32 _ (mread_length_of_le _ (rb + 8) 4 (by rw [hglen]; omega))
      (bytes_mread _ hgbytes (rb + 8) 4)
  rw [hrt, ← hread]
  rw [mwrite_self_read _ (rb + 8) 4
    (by rw [mwrite_length, mwrite_length, hglen]; omega)]
  rw [← mwrite_le32_append]

theorem twoLe32_length (x y : Nat) : (le32 x ++ le32 y).length = 8 := by
  simp [le32]

/-- Claim C9: detaching an attached endpoint changes exactly the Sign word
(its own OP bit cleared: low bits and high bits preserved, the op bit
zeroed) and the two cursor words of its receive ring (set to 0); every
other byte of the file — Magic, Version, both base pointers, the receive
ring's Size word, and the whole send ring — is unchanged. -/
theorem c9_detach_frame (f : List Nat) (op rb : Nat)
    (hbytes : Bytes f) (hrb : 20 ≤ rb) (hlen : rb + 12 ≤ f.length) :
    de32 (mread (delEndpoint f op rb) 16 4) =
      de32 (mread f 16 4) - (de32 (mread f 16 4) &&& op) ∧
    (op = OPA →
      de32 (mread (delEndpoint f op rb) 16 4) % 2 ^ 30 =
        de32 (mread f 16 4) % 2 ^ 30 ∧
      de32 (mread (delEndpoint f op rb) 16 4) / 2 ^ 31 =
        de32 (mread f 16 4) / 2 ^ 31 ∧
      de32 (mread (delEndpoint f op rb) 16 4) / 2 ^ 30 % 2 = 0) ∧
    (op = OPB →
      de32 (mread (delEndpoint f op rb) 16 4) % 2 ^ 29 =
        de32 (mread f 16 4) % 2 ^ 29 ∧
      de32 (mread (delEndpoint f op rb) 16 4) / 2 ^ 30 =
        de32 (mread f 16 4) / 2 ^ 30 ∧
      de32 (mread (delEndpoint f op rb) 16 4) / 2 ^ 29 % 2 = 0) ∧
    mread (delEndpoint f op rb) rb 4 = le32 0 ∧
    mread (delEndpoint f op rb) (rb + 4) 4 = le32 0 ∧
    (∀ pos len : Nat,
      pos + len ≤ 16 ∨ (20 ≤ pos ∧ pos + len ≤ rb) ∨ rb + 8 ≤ pos →
      mread (delEndpoint f op rb) pos len = mread f pos len) ∧
    (delEndpoint f op rb).length = f.length := by
  have heq := delEndpoint_eq f op rb hbytes hrb hlen
  have hs32 : de32 (mread f 16 4) < 4294967296 :=
    de32_lt _ (bytes_mread f hbytes 16 4)
  have hsign : de32 (mread (delEndpoint f op rb) 16 4) =
      de32 (mread f 16 4) - (de32 (mread f 16 4) &&& op) := by
    rw [heq, mread_mwrite_before _ _ _ 16 4 (by omega)]
    have hself := mread_mwrite_self f 16
      (le32 (de32 (mread f 16 4) - (de32 (mread f 16 4) &&& op))) (by rw [le32_length]; omega)
    rw [le32_length] at hself
    rw [hself, de32_le32 _ (by omega)]
  refine ⟨hsign, ?_, ?_, ?_, ?_, ?_, ?_⟩
  · intro hA
    rw [hsign, hA]
    exact clear_opa_bits _
  · intro hB
    rw [hsign, hB]
    exact clear_opb_bits _
  · rw [heq, mread_mwrite_inside _ rb _ rb 4 (Nat.le_refl rb) (by rw [twoLe32_length]; omega)
      (by rw [twoLe32_length, mwrite_length]; omega)]
    rw [Nat.sub_self, List.drop_zero, take4_le32_append]
  · rw [heq, mread_mwrite_inside _ rb _ (rb + 4) 4 (by omega) (by rw [twoLe32_length])
      (by rw [twoLe32_length, mwrite_length]; omega)]
    rw [Nat.add_sub_cancel_left, show (4 : Nat) = 4 + 0 from rfl, drop_add4_le32_append,
      List.drop_zero, take4_le32]
  · intro pos len hcase
    rw [heq]
    rcases hcase with hc | hc | hc
    · rw [mread_mwrite_before _ _ _ pos len (by omega),
        mread_mwrite_before _ _ _ pos len (by omega)]
    · rw [mread_mwrite_before _ _ _ pos len (by omega),
        mread_mwrite_after _ _ _ pos len (by rw [le32_length]; omega)]
    · rw [mread_mwrite_after _ _ _ pos len (by rw [twoLe32_length]; omega),
        mread_mwrite_after _ _ _ pos len (by rw [le32_length]; omega)]
  · rw [heq, mwrite_length, mwrite_length]

/-- A concrete state for the C9 witness: the fresh 16-byte-payload file
with Sign overwritten to OPA + OPB (both endpoints attached). -/
def file16Both : List Nat :=
  writeMmapHeader file16 (MAGIC_NUMBER, 1, 20, 49, OPA + OPB)

theorem c9_detach_frame_witness :
    mread (delEndpoint file16Both OPA 20) 20 4 = le32 0 ∧
    mread (delEndpoint file16Both OPA 20) (20 + 4) 4 = le32 0 ∧
    de32 (mread (delEndpoint file16Both OPA 20) 16 4) % 2 ^ 30 =
      de32 (mread file16Both 16 4) % 2 ^ 30 ∧
    de32 (mread (delEndpoint file16Both OPA 20) 16 4) / 2 ^ 30 % 2 = 0 := by
  have h := c9_detach_frame file16Both OPA 20
    (by exact (by decide : ∀ b ∈ file16Both, b < 256)) (by decide) (by decide)
  exact ⟨h.2.2.2.1, h.2.2.2.2.1, (h.2.1 rfl).1, (h.2.1 rfl).2.2⟩

/-! ### Claim C7 -/

/-- After `send` writes back `InOffset`, reading the ring header returns
the written cursor and the untouched OutOffset/Size words. -/
theorem readBuffHeader_update_in (f g : List Nat) (base x : Nat)
    (hg1 : g.length = f.length)
    (hg2 : mread g (base + 4) 4 = mread f (base + 4) 4)
    (hg3 : mread g (base + 8) 4 = mread f (base + 8) 4)
    (hx : x < 4294967296) (hlen : base + 12 ≤ f.length) :
    readBuffHeader (updateBuffOffset g base x) base =
      (x, de32 (mread f (base + 4) 4), de32 (mread f (base + 8) 4)) := by
  unfold updateBuffOffset readBuffHeader
  rw [mread_mwrite_after g base (le32 x) (base + 4) 4 (by rw [le32_length]),
    mread_mwrite_after g base (le32 x) (base + 8) 4 (by rw [le32_length]; omega)]
  have hself := mread_mwrite_self g base (le32 x) (by rw [le32_length, hg1]; omega)
  rw [le32_length] at hself
  rw [hself, de32_le32 x hx, hg2, hg3]

/-- Claim C7: with the send ring empty (`in = out = i`) and a payload of
exactly `P - 3` bytes, the frame is `P + 1 = Size` bytes, `send` accepts
and returns `P - 3`, advances `InOffset` by `Size mod Size = 0` so the
header still reads `(i, i, P + 1)`, and a subsequent non-blocking `recv`
on the same ring returns `none`: the message is never delivered. -/
theorem c7_size_frame_vanishes (f : List Nat) (base P i : Nat) (data : List Nat)
    (hh : readBuffHeader f base = (i, i, P + 1))
    (hi : i ≤ P) (hP : 3 ≤ P) (hd : data.length = P - 3)
    (hP32 : P + 1 < 4294967296)
    (hflen : base + 12 + (P + 1) ≤ f.length) :
    (send f base data).1 = P - 3 ∧
    readBuffHeader (send f base data).2 base = (i, i, P + 1) ∧
    (recv (send f base data).2 base).1 = none ∧
    (recv (send f base data).2 base).2 = (send f base data).2 := by
  have hhc : de32 (mread f (base + 4) 4) = i ∧ de32 (mread f (base + 8) 4) = P + 1 := by
    simp only [readBuffHeader, Prod.mk.injEq] at hh
    exact ⟨hh.2.1, hh.2.2⟩
  have hmain : (send f base data).1 = P - 3 ∧
      readBuffHeader (send f base data).2 base = (i, i, P + 1) := by
    unfold send
    rw [hh]
    dsimp only
    unfold calcBuffAvailableSize
    rw [if_pos (le_refl (i : Int))]
    dsimp only
    rw [if_neg (by push_cast; omega)]
    dsimp only [InOffsetIdx, structSizeBuffer]
    rw [show base + 0 * 4 = base from by omega]
    rw [hd, show P - 3 + 4 = P + 1 from by omega, Nat.add_mod_right,
      Nat.mod_eq_of_lt (show i < P + 1 by omega)]
    refine ⟨rfl, ?_⟩
    rw [readBuffHeader_update_in f _ base i ?_ ?_ ?_ (by omega) (by omega), hhc.1, hhc.2]
    · split
      · rw [mwrite_length, mwrite_length]
      · rw [mwrite_length]
    · split
      · rw [mread_mwrite_before _ _ _ _ _ (by omega),
          mread_mwrite_before _ _ _ _ _ (by omega)]
      · rw [mread_mwrite_before _ _ _ _ _ (by omega)]
    · split
      · rw [mread_mwrite_before _ _ _ _ _ (by omega),
          mread_mwrite_before _ _ _ _ _ (by omega)]
      · rw [mread_mwrite_before _ _ _ _ _ (by omega)]
  have hrecv : recv (send f base data).2 base = (none, (send f base data).2) := by
    unfold recv
    rw [hmain.2]
    dsimp only
    rw [if_pos rfl]
  exact ⟨hmain.1, hmain.2, by rw [hrecv], by rw [hrecv]⟩

theorem c7_size_frame_vanishes_witness :
    (send file16 20 (List.replicate 13 7)).1 = 16 - 3 ∧
    readBuffHeader (send file16 20 (List.replicate 13 7)).2 20 = (0, 0, 16 + 1) ∧
    (recv (send file16 20 (List.replicate 13 7)).2 20).1 = none ∧
    (recv (send file16 20 (List.replicate 13 7)).2 20).2 =
      (send file16 20 (List.replicate 13 7)).2 :=
  c7_size_frame_vanishes file16 20 16 0 (List.replicate 13 7) (by decide) (by decide)
    (by decide) (by decide) (by decide) (by decide)

end Mmapipc
